import Mathlib

/-!
Shallow embedding of `src/src-tauri/src/lib.rs` (filegraph-desktop backend):
the debounced filesystem Watch Manager (`start_watch`, `stop_watch` and the
debouncer event callback) together with the CRUD helpers the claims mention
(`list_directory`, `read_text_file`, `write_text_file`, `copy_items`,
`move_items`).

Rust `Mutex<Option<Debouncer>>` contents are modelled as `Option Session`;
OS/lock outcomes that the Rust code observes through `Result` values are
modelled as explicit Boolean inputs carrying their error payloads.
-/

namespace Filegraph

/-! ### Raw event kinds (the `notify` crate's `EventKind` tree, as consumed
by the callback through `format!("{:?}", event.event.kind)`).
Constructor names follow the Rust enum variants except where Lean reserves
the word (`open`, `close`, `from`, `to` become `opened`, `closed`,
`fromPath`, `toPath`). -/

inductive AccessMode
  | any | execute | read | write | other
deriving DecidableEq

inductive AccessKind
  | any
  | read
  | opened (m : AccessMode)
  | closed (m : AccessMode)
  | other
deriving DecidableEq

inductive CreateKind
  | any | file | folder | other
deriving DecidableEq

inductive DataChange
  | any | size | content | other
deriving DecidableEq

inductive MetadataKind
  | any | accessTime | writeTime | permissions | ownership | extended | other
deriving DecidableEq

inductive RenameMode
  | any | toPath | fromPath | both | other
deriving DecidableEq

inductive ModifyKind
  | any
  | data (c : DataChange)
  | metadata (m : MetadataKind)
  | name (r : RenameMode)
  | other
deriving DecidableEq

inductive RemoveKind
  | any | file | folder | other
deriving DecidableEq

inductive EventKind
  | any
  | access (k : AccessKind)
  | create (k : CreateKind)
  | modify (k : ModifyKind)
  | remove (k : RemoveKind)
  | other
deriving DecidableEq

/-- Rust `Debug` rendering of `AccessMode`. -/
def AccessMode.debugFormat : AccessMode → String
  | .any => "Any"
  | .execute => "Execute"
  | .read => "Read"
  | .write => "Write"
  | .other => "Other"

/-- Rust `Debug` rendering of `AccessKind`. -/
def AccessKind.debugFormat : AccessKind → String
  | .any => "Any"
  | .read => "Read"
  | .opened m => "Open(" ++ m.debugFormat ++ ")"
  | .closed m => "Close(" ++ m.debugFormat ++ ")"
  | .other => "Other"

/-- Rust `Debug` rendering of `CreateKind`. -/
def CreateKind.debugFormat : CreateKind → String
  | .any => "Any"
  | .file => "File"
  | .folder => "Folder"
  | .other => "Other"

/-- Rust `Debug` rendering of `DataChange`. -/
def DataChange.debugFormat : DataChange → String
  | .any => "Any"
  | .size => "Size"
  | .content => "Content"
  | .other => "Other"

/-- Rust `Debug` rendering of `MetadataKind`. -/
def MetadataKind.debugFormat : MetadataKind → String
  | .any => "Any"
  | .accessTime => "AccessTime"
  | .writeTime => "WriteTime"
  | .permissions => "Permissions"
  | .ownership => "Ownership"
  | .extended => "Extended"
  | .other => "Other"

/-- Rust `Debug` rendering of `RenameMode`. -/
def RenameMode.debugFormat : RenameMode → String
  | .any => "Any"
  | .toPath => "To"
  | .fromPath => "From"
  | .both => "Both"
  | .other => "Other"

/-- Rust `Debug` rendering of `ModifyKind`. -/
def ModifyKind.debugFormat : ModifyKind → String
  | .any => "Any"
  | .data c => "Data(" ++ c.debugFormat ++ ")"
  | .metadata m => "Metadata(" ++ m.debugFormat ++ ")"
  | .name r => "Name(" ++ r.debugFormat ++ ")"
  | .other => "Other"

/-- Rust `Debug` rendering of `RemoveKind`. -/
def RemoveKind.debugFormat : RemoveKind → String
  | .any => "Any"
  | .file => "File"
  | .folder => "Folder"
  | .other => "Other"

/-- Rust `Debug` rendering of `EventKind`, exactly the string produced by
`format!("{:?}", event.event.kind)` in the callback (lib.rs line 64). -/
def EventKind.debugFormat : EventKind → String
  | .any => "Any"
  | .access k => "Access(" ++ k.debugFormat ++ ")"
  | .create k => "Create(" ++ k.debugFormat ++ ")"
  | .modify k => "Modify(" ++ k.debugFormat ++ ")"
  | .remove k => "Remove(" ++ k.debugFormat ++ ")"
  | .other => "Other"

/-- Top-level raw change category of an event kind (the outermost `notify`
`EventKind` variant). -/
def kindCategory : EventKind → String
  | .any => "Any"
  | .access _ => "Access"
  | .create _ => "Create"
  | .modify _ => "Modify"
  | .remove _ => "Remove"
  | .other => "Other"

/-- One debounced event as delivered by `notify_debouncer_full` to the
callback: its raw event kind and the paths involved (already rendered as
strings, modelling `p.display().to_string()`). -/
structure DebouncedEvent where
  kind : EventKind
  paths : List String
deriving DecidableEq

/-- Payload emitted on the `fs-change` channel (lib.rs lines 32-36). -/
structure FilesystemChange where
  kind : String
  paths : List String
deriving DecidableEq

/-- Debouncer callback body (lib.rs lines 58-76). On `Ok(events)` it emits
one `FilesystemChange` per debounced event, with `kind` the `Debug`
rendering of the event's kind and `paths` the event's paths in order; emit
failures are ignored (`let _ = ...`). On `Err(errors)` it emits nothing and
prints one line per error. Result: (emitted changes, log lines). OS errors
are modelled by their `Debug` text. -/
def runCallback (result : Except (List String) (List DebouncedEvent)) :
    List FilesystemChange × List String :=
  match result with
  | .ok events =>
      (events.map (fun e => { kind := e.kind.debugFormat, paths := e.paths }), [])
  | .error errors =>
      ([], errors.map (fun e => "Filesystem watch error: " ++ e))

/-- Changes emitted for one debounced batch (one flushed window). -/
def processBatch (events : List DebouncedEvent) : List FilesystemChange :=
  (runCallback (.ok events)).1

/-- The single active watch session (the stored `Debouncer` watching a
path). `Mutex<Option<DebouncerType>>` contents are `Option Session`. -/
structure Session where
  path : String
deriving DecidableEq

/-- Number of simultaneously active watch sessions in the shared state. -/
def sessionCount : Option Session → Nat
  | none => 0
  | some _ => 1

/-- The callback runs on the debouncer's background thread and has no
access to the `WatcherState` mutex, so delivery leaves the session state
untouched; it returns no value to any caller. -/
def deliver (result : Except (List String) (List DebouncedEvent))
    (st : Option Session) :
    (List FilesystemChange × List String) × Option Session :=
  (runCallback result, st)

/-- Environment outcomes observed by one `start_watch` call: whether the
mutex lock succeeds (`state.0.lock()`), whether `new_debouncer` succeeds,
whether `watcher().watch(path)` succeeds, with the error payloads the Rust
code would interpolate into its messages. -/
structure StartEnv where
  lockOk : Bool
  constructOk : Bool
  watchOk : Bool
  lockErr : String
  constructErr : String
  watchErr : String
deriving DecidableEq

/-- All-success environment. -/
def okEnv : StartEnv :=
  { lockOk := true, constructOk := true, watchOk := true,
    lockErr := "", constructErr := "", watchErr := "" }

/-- Shallow embedding of `start_watch` (lib.rs lines 43-87). The body:
acquire the lock (error propagates); assign `None` (dropping any prior
debouncer); build the new debouncer (error propagates, state stays `None`);
install the watch on the path (error propagates, state stays `None`);
store the debouncer. Returns (command result, state after the call). -/
def start_watch (env : StartEnv) (p : String) (st : Option Session) :
    Except String Unit × Option Session :=
  if env.lockOk = false then
    (.error ("Failed to lock watcher: " ++ env.lockErr), st)
  else if env.constructOk = false then
    (.error ("Failed to create watcher: " ++ env.constructErr), none)
  else if env.watchOk = false then
    (.error ("Failed to watch directory: " ++ env.watchErr), none)
  else
    (.ok (), some { path := p })

/-- Actions `start_watch` performs on the shared state, in program order:
`teardown` for the unconditional `*watcher_lock = None` (lib.rs line 51)
and `install p` for `*watcher_lock = Some(debouncer)` (line 84). Nothing
happens when the lock cannot be acquired. -/
inductive WatchOp
  | teardown
  | install (p : String)
deriving DecidableEq

/-- State-mutation trace of one `start_watch` call, read off the Rust
control flow. -/
def start_watch_ops (env : StartEnv) (p : String) : List WatchOp :=
  if env.lockOk = false then []
  else if env.constructOk = false then [.teardown]
  else if env.watchOk = false then [.teardown]
  else [.teardown, .install p]

/-- Shallow embedding of `stop_watch` (lib.rs lines 89-94): acquire the
lock (error propagates, state untouched), assign `None`, return `Ok`. -/
def stop_watch (lockOk : Bool) (lockErr : String) (st : Option Session) :
    Except String Unit × Option Session :=
  if lockOk = false then
    (.error ("Failed to lock watcher: " ++ lockErr), st)
  else
    (.ok (), none)

/-- Whether a command result is an error. -/
def isErr : Except String Unit → Bool
  | .error _ => true
  | .ok _ => false

/-! ### Watch Manager theorems -/

/-- C2: every `start_watch` call, succeeding or failing, leaves at most one
watch session active; once the lock is held the prior session never
survives (the state afterwards is either empty or the fresh session on the
requested path); the state-mutation trace always begins with the
unconditional teardown, and any install is of the requested path and comes
strictly after the teardown; and a second successful `start_watch` leaves
exactly one session, bound to the second path. -/
theorem start_watch_at_most_one_session (env : StartEnv) (p p1 p2 : String)
    (st : Option Session) :
    sessionCount (start_watch env p st).2 ≤ 1
    ∧ (env.lockOk = true →
        (start_watch env p st).2 = none
        ∨ (start_watch env p st).2 = some { path := p })
    ∧ (start_watch_ops env p ≠ [] →
        (start_watch_ops env p).head? = some .teardown)
    ∧ (∀ q, WatchOp.install q ∈ start_watch_ops env p →
        start_watch_ops env p = [.teardown, .install p] ∧ q = p)
    ∧ start_watch okEnv p2 (start_watch okEnv p1 st).2
        = (.ok (), some { path := p2 }) := by
  obtain ⟨l, c, w, le, ce, we⟩ := env
  cases l <;> cases c <;> cases w <;>
    cases st <;>
      simp [start_watch, start_watch_ops, sessionCount, okEnv]

/-- Witness for C2 at concrete inputs: replacing an old session by two
successive successful calls ends bound to the second path, and the trace of
a successful call is teardown then install. -/
theorem start_watch_at_most_one_session_witness :
    ((start_watch okEnv "/a" (some { path := "/old" })).2 = none
      ∨ (start_watch okEnv "/a" (some { path := "/old" })).2
          = some { path := "/a" })
    ∧ (start_watch_ops okEnv "/a").head? = some .teardown
    ∧ start_watch okEnv "/b" (start_watch okEnv "/a" (some { path := "/old" })).2
        = (.ok (), some { path := "/b" }) := by
  have h := start_watch_at_most_one_session okEnv "/a" "/a" "/b"
    (some { path := "/old" })
  exact ⟨h.2.1 rfl, h.2.2.1 (by decide), h.2.2.2.2⟩

/-- C3: `stop_watch` with the lock available returns success and leaves no
active session, whatever the prior state (in particular it is a successful
no-op when already idle); it is idempotent; and it errors exactly when the
shared lock cannot be acquired. -/
theorem stop_watch_idempotent_noop (st : Option Session) (l : Bool)
    (msg : String) :
    stop_watch true msg st = (.ok (), none)
    ∧ stop_watch true msg none = (.ok (), none)
    ∧ stop_watch true msg (stop_watch true msg st).2 = (.ok (), none)
    ∧ (isErr (stop_watch l msg st).1 = true ↔ l = false) := by
  cases l <;> simp [stop_watch, isErr]

/-- C4: when `start_watch` holds the lock but the debouncer cannot be
constructed or the OS refuses to watch the path, the call errors and the
manager is left Idle: the prior session is gone and nothing restores it. -/
theorem start_watch_failure_leaves_idle (env : StartEnv) (p : String)
    (st : Option Session) (hl : env.lockOk = true)
    (hf : env.constructOk = false ∨ env.watchOk = false) :
    isErr (start_watch env p st).1 = true
    ∧ (start_watch env p st).2 = none := by
  obtain ⟨l, c, w, le, ce, we⟩ := env
  cases l <;> cases c <;> cases w <;>
    simp_all [start_watch, isErr]

/-- Witness for C4: a failed watch install while replacing a live session
errors and leaves the Idle state. -/
theorem start_watch_failure_leaves_idle_witness :
    isErr (start_watch ⟨true, true, false, "", "", "denied"⟩ "/p"
        (some { path := "/q" })).1 = true
    ∧ (start_watch ⟨true, true, false, "", "", "denied"⟩ "/p"
        (some { path := "/q" })).2 = none :=
  start_watch_failure_leaves_idle ⟨true, true, false, "", "", "denied"⟩ "/p"
    (some { path := "/q" }) rfl (Or.inr rfl)

/-- C5: when the OS hands the callback a batch of errors instead of events,
no `FilesystemChange` is emitted, each error produces exactly one log line
of its own, the session state is untouched (the callback never reaches the
watch state, so the watch is neither terminated nor restarted), and the
callback returns normally (it is a total function with no error result, so
nothing propagates to any caller). -/
theorem watch_error_batch_logged_only (errors : List String)
    (st : Option Session) :
    deliver (.error errors) st
      = (([], errors.map (fun e => "Filesystem watch error: " ++ e)), st)
    ∧ ((deliver (.error errors) st).1.2).length = errors.length
    ∧ (∀ r, (deliver r st).2 = st) := by
  refine ⟨rfl, ?_, fun r => rfl⟩
  simp [deliver, runCallback]

/-! ### The coalescing policy as the spec words it (for claim C1)

The spec claims one notification per distinct event kind present in a
flushed window, carrying all affected paths for that kind with duplicates
removed and arrival order preserved. The definitions below formalise that
claimed policy so it can be compared with what the callback actually emits
(`processBatch`). -/

/-- Accumulator pass keeping the first occurrence of each element. -/
def firstDedupAux {α : Type} [DecidableEq α] : List α → List α → List α
  | _, [] => []
  | seen, a :: l =>
      if a ∈ seen then firstDedupAux seen l
      else a :: firstDedupAux (a :: seen) l

/-- Duplicates removed, first occurrences kept, order preserved. -/
def firstDedup {α : Type} [DecidableEq α] (l : List α) : List α :=
  firstDedupAux [] l

/-- Distinct event kinds present in a window's batch, in arrival order. -/
def distinctKinds (events : List DebouncedEvent) : List EventKind :=
  firstDedup (events.map DebouncedEvent.kind)

/-- All paths affected by events of one kind within a batch, duplicates
removed, arrival order preserved. -/
def pathsForKind (k : EventKind) (events : List DebouncedEvent) : List String :=
  firstDedup ((events.filter (fun e => e.kind = k)).flatMap DebouncedEvent.paths)

/-- Modelled from the spec: the claimed coalescing output for one window —
exactly one `FilesystemChange` per distinct kind present, carrying the
deduplicated, order-preserving path list of that kind. Written from the
spec's words, to be compared with the code's `processBatch`. -/
def specCoalesce (events : List DebouncedEvent) : List FilesystemChange :=
  (distinctKinds events).map
    (fun k => { kind := k.debugFormat, paths := pathsForKind k events })

/-- Window batch in which two files were modified: `notify_debouncer_full`
keeps one queue per path, so two modified paths reach the callback as two
debounced events of the same kind. -/
def twoModifyBatch : List DebouncedEvent :=
  [{ kind := .modify .any, paths := ["/w/a.txt"] },
   { kind := .modify .any, paths := ["/w/b.txt"] }]

/-- Window batch with one created and one removed event. -/
def twoKindBatch : List DebouncedEvent :=
  [{ kind := .create .file, paths := ["/w/new.txt"] },
   { kind := .remove .file, paths := ["/w/old.txt"] }]

/-- Detail payload of an event kind: everything of the `Debug` rendering
after the top-level category name. -/
def kindDetail : EventKind → String
  | .any => ""
  | .access k => "(" ++ k.debugFormat ++ ")"
  | .create k => "(" ++ k.debugFormat ++ ")"
  | .modify k => "(" ++ k.debugFormat ++ ")"
  | .remove k => "(" ++ k.debugFormat ++ ")"
  | .other => ""

/-- C8: every emitted `FilesystemChange` carries as `kind` the raw `Debug`
rendering of the debounced event's kind and as `paths` exactly that event's
path strings in order; and every such kind string decomposes as its raw
top-level change category (one of Any/Access/Create/Modify/Remove/Other,
"created"/"modified"/"removed" appearing as the Create/Modify/Remove
categories and renames inside the Modify category) followed by its detail. -/
theorem fs_change_kind_and_paths (events : List DebouncedEvent) :
    (processBatch events).map FilesystemChange.kind
        = events.map (fun e => e.kind.debugFormat)
    ∧ (processBatch events).map FilesystemChange.paths
        = events.map DebouncedEvent.paths
    ∧ (∀ k : EventKind, k.debugFormat = kindCategory k ++ kindDetail k
        ∧ kindCategory k ∈ ["Any", "Access", "Create", "Modify", "Remove", "Other"]) := by
  refine ⟨?_, ?_, fun k => ⟨?_, ?_⟩⟩
  · simp [processBatch, runCallback]
  · simp [processBatch, runCallback]
  · cases k <;> rfl
  · cases k <;> simp [kindCategory]

/-- Helper: deduplication is the identity on duplicate-free lists. -/
theorem firstDedup_of_nodup {α : Type} [DecidableEq α] (l : List α)
    (h : l.Nodup) : firstDedup l = l := by
  suffices H : ∀ (l seen : List α), l.Nodup → (∀ x ∈ l, x ∉ seen) →
      firstDedupAux seen l = l from H l [] h (by simp)
  intro l
  induction l with
  | nil => intro seen _ _; rfl
  | cons a t ih =>
    intro seen hn hd
    have hat := List.nodup_cons.mp hn
    rw [firstDedupAux, if_neg (hd a (List.mem_cons_self a t)),
      ih (a :: seen) hat.2 ?_]
    intro x hx
    simp only [List.mem_cons, not_or]
    exact ⟨fun e => hat.1 (e ▸ hx), hd x (List.mem_cons_of_mem a hx)⟩

/-- Helper: in a batch whose event kinds are pairwise distinct, filtering
by the kind of a member keeps exactly that member. -/
theorem filter_kind_eq_single (events : List DebouncedEvent)
    (e : DebouncedEvent) (hk : (events.map DebouncedEvent.kind).Nodup)
    (he : e ∈ events) :
    events.filter (fun x => x.kind = e.kind) = [e] := by
  induction events with
  | nil => cases he
  | cons f rest ih =>
    rw [List.map_cons, List.nodup_cons] at hk
    rcases List.mem_cons.mp he with rfl | hmem
    · rw [List.filter_cons_of_pos (by simp)]
      have hnil : rest.filter (fun x => x.kind = e.kind) = [] := by
        rw [List.filter_eq_nil_iff]
        intro x hx
        simp only [decide_eq_true_eq]
        intro hkx
        exact hk.1 (hkx ▸ List.mem_map_of_mem DebouncedEvent.kind hx)
      rw [hnil]
    · have hne : ¬ (f.kind = e.kind) := fun hEq =>
        hk.1 (hEq ▸ List.mem_map_of_mem DebouncedEvent.kind hmem)
      rw [List.filter_cons_of_neg (by simpa using hne)]
      exact ih hk.2 hmem

/-- C1 counterexample: a window in which two different files were modified
reaches the callback as two debounced events of the same kind, and the
callback emits two `FilesystemChange` records of that one kind — not the
single per-kind record carrying both paths that the claim describes. -/
theorem coalesce_per_kind_counterexample :
    (processBatch twoModifyBatch).length = 2
    ∧ (distinctKinds twoModifyBatch).length = 1
    ∧ (processBatch twoModifyBatch).map FilesystemChange.kind
        = ["Modify(Any)", "Modify(Any)"]
    ∧ processBatch twoModifyBatch ≠ specCoalesce twoModifyBatch := by
  decide

/-- C1 amended: the callback emits exactly one `FilesystemChange` per
debounced event of the flushed window, carrying that event's kind string
and its paths in arrival order; when no two events of the batch share a
kind and no event repeats a path — in particular when a burst of modify
events on one path has been merged by the debouncer into a single event,
or when the window holds one event each of two kinds — this coincides
with the spec's one-notification-per-distinct-kind policy. -/
theorem coalesce_per_event (events : List DebouncedEvent)
    (hk : (events.map DebouncedEvent.kind).Nodup)
    (hp : ∀ e ∈ events, e.paths.Nodup) :
    processBatch events = specCoalesce events
    ∧ processBatch events
        = events.map (fun e =>
            { kind := e.kind.debugFormat, paths := e.paths }) := by
  refine ⟨?_, rfl⟩
  unfold processBatch runCallback specCoalesce distinctKinds
  rw [firstDedup_of_nodup _ hk, List.map_map]
  apply List.map_congr_left
  intro e he
  have h1 : pathsForKind e.kind events = e.paths := by
    unfold pathsForKind
    rw [filter_kind_eq_single events e hk he, List.flatMap_cons,
      List.flatMap_nil, List.append_nil]
    exact firstDedup_of_nodup _ (hp e he)
  simp [Function.comp, h1]

/-- Witness for the amended C1 at a concrete window: one created and one
removed event yield two separate records, each listing only its own path,
and the per-event emission agrees with the per-kind grouping here. -/
theorem coalesce_per_event_witness :
    ((twoKindBatch.map DebouncedEvent.kind).Nodup
      ∧ (∀ e ∈ twoKindBatch, e.paths.Nodup))
    ∧ processBatch twoKindBatch = specCoalesce twoKindBatch
    ∧ processBatch twoKindBatch
        = [{ kind := "Create(File)", paths := ["/w/new.txt"] },
           { kind := "Remove(File)", paths := ["/w/old.txt"] }] := by
  have hk : (twoKindBatch.map DebouncedEvent.kind).Nodup := by decide
  have hp : ∀ e ∈ twoKindBatch, e.paths.Nodup := by decide
  exact ⟨⟨hk, hp⟩, (coalesce_per_event twoKindBatch hk hp).1, by decide⟩

/-! ### Text file reading and writing (lib.rs lines 406-484) -/

/-- Status of a filesystem path as observed by the CRUD commands: absent,
a directory, or a regular file with its byte contents. -/
inductive FsEntry
  | missing
  | dir
  | file (bytes : List Nat)
deriving DecidableEq

/-- Result of `read_text_file`. The Rust `content` string is the UTF-8
decoding (by `encoding_rs::UTF_8.decode`, an external library call) of the
byte buffer read from the file; the byte cap governs that buffer, so
`content` is modelled as the buffer itself and its length is measured in
bytes read. -/
structure TextFileContent where
  content : List Nat
  truncated : Bool
  encoding : String
  size : Nat
deriving DecidableEq

/-- Shallow embedding of `read_text_file` (lib.rs lines 406-463): checks
existence and directory-ness, reads metadata (`metadataOk`), opens the
file (`openOk`), reads `min(file_size, max_bytes)` bytes (for a regular
file whose size the metadata just reported, `read_exact` of that many
bytes succeeds, so the `read_to_end` fallback is not taken), and reports
`truncated = file_size > max_bytes` with the file's full size. The cap
defaults to 4 MiB when the caller passes none. -/
def read_text_file (entry : FsEntry) (metadataOk openOk : Bool)
    (metaErr openErr : String) (maxBytes : Option Nat) :
    Except String TextFileContent :=
  match entry with
  | .missing => .error "File does not exist"
  | .dir => .error "Cannot read directory as text file"
  | .file bytes =>
      if metadataOk = false then
        .error ("Failed to read file metadata: " ++ metaErr)
      else if openOk = false then
        .error ("Failed to open file: " ++ openErr)
      else
        let fileSize := bytes.length
        let cap := (maxBytes.getD (4 * 1024 * 1024))
        let buffer := bytes.take (min fileSize cap)
        .ok { content := buffer, truncated := decide (fileSize > cap),
              encoding := "UTF-8", size := fileSize }

/-- C6: reading a file larger than the byte cap yields `truncated = true`
with exactly `cap` bytes of content; reading one of at most the cap yields
`truncated = false` with the full content; `size` is the full file size in
both cases; and an omitted cap is exactly the 4 MiB default. -/
theorem read_text_file_byte_cap (bytes : List Nat) (cap : Nat) :
    (bytes.length > cap →
      read_text_file (.file bytes) true true "" "" (some cap)
        = .ok { content := bytes.take cap, truncated := true,
                encoding := "UTF-8", size := bytes.length }
      ∧ (bytes.take cap).length = cap)
    ∧ (bytes.length ≤ cap →
      read_text_file (.file bytes) true true "" "" (some cap)
        = .ok { content := bytes, truncated := false,
                encoding := "UTF-8", size := bytes.length })
    ∧ read_text_file (.file bytes) true true "" "" none
        = read_text_file (.file bytes) true true "" ""
            (some (4 * 1024 * 1024)) := by
  refine ⟨fun h => ⟨?_, ?_⟩, fun h => ?_, rfl⟩
  · simp [read_text_file, Nat.min_eq_right (Nat.le_of_lt h), h]
  · simp [List.length_take, Nat.min_eq_left (Nat.le_of_lt h)]
  · simp [read_text_file, Nat.min_eq_left h, Nat.not_lt.mpr h,
      List.take_of_length_le h]

/-- Witness for C6: a 3-byte file capped at 2 bytes is truncated to its
first 2 bytes, and a 2-byte file capped at 4 is returned whole. -/
theorem read_text_file_byte_cap_witness :
    (([10, 11, 12] : List Nat).length > 2
      ∧ read_text_file (.file [10, 11, 12]) true true "" "" (some 2)
          = .ok { content := [10, 11], truncated := true,
                  encoding := "UTF-8", size := 3 })
    ∧ (([10, 11] : List Nat).length ≤ 4
      ∧ read_text_file (.file [10, 11]) true true "" "" (some 4)
          = .ok { content := [10, 11], truncated := false,
                  encoding := "UTF-8", size := 2 }) := by
  refine ⟨⟨by decide, ?_⟩, ⟨by decide, ?_⟩⟩
  · exact ((read_text_file_byte_cap [10, 11, 12] 2).1 (by decide)).1
  · exact (read_text_file_byte_cap [10, 11] 4).2.1 (by decide)

/-- Shallow embedding of `write_text_file` (lib.rs lines 465-484): errors
on a missing path or a directory without touching anything, otherwise
calls `fs::write` with the content bytes (`writeOk` models that call; a
failed write is modelled as leaving the previous contents — partial
writes are not modelled). Returns (command result, entry afterwards). -/
def write_text_file (entry : FsEntry) (content : List Nat)
    (writeOk : Bool) (writeErr : String) :
    Except String String × FsEntry :=
  match entry with
  | .missing => (.error "File does not exist", .missing)
  | .dir => (.error "Cannot write to directory", .dir)
  | .file old =>
      if writeOk = false then
        (.error ("Failed to write file: " ++ writeErr), .file old)
      else
        (.ok "File saved successfully", .file content)

/-- C9: `write_text_file` never creates a file — a missing path yields the
error "File does not exist" with the filesystem unchanged, a directory
yields an error, and only an already-existing regular file is overwritten
(successfully when the OS write succeeds). -/
theorem write_text_file_never_creates (content old : List Nat)
    (werr : String) :
    write_text_file .missing content true werr
        = (.error "File does not exist", .missing)
    ∧ write_text_file .missing content false werr
        = (.error "File does not exist", .missing)
    ∧ write_text_file .dir content true werr
        = (.error "Cannot write to directory", .dir)
    ∧ write_text_file .dir content false werr
        = (.error "Cannot write to directory", .dir)
    ∧ write_text_file (.file old) content true werr
        = (.ok "File saved successfully", .file content)
    ∧ write_text_file (.file old) content false werr
        = (.error ("Failed to write file: " ++ werr), .file old) :=
  ⟨rfl, rfl, rfl, rfl, rfl, rfl⟩

/-! ### copy_items and move_items (lib.rs lines 287-385) -/

/-- Per-source-path facts observed by one iteration of the copy/move
loops: whether the source exists, whether `source.file_name()` yields a
name, whether the destination-directory entry of that name already exists,
and whether the OS copy/rename succeeds. -/
structure ItemCtx where
  sourceExists : Bool
  hasFileName : Bool
  destOccupied : Bool
  opOk : Bool
deriving DecidableEq

/-- An item is actually transferred when none of the four skip conditions
fires. -/
def shouldTransfer (i : ItemCtx) : Bool :=
  i.sourceExists && i.hasFileName && !i.destOccupied && i.opOk

/-- Loop of `copy_items` (lib.rs lines 297-326) with its running
`copied_count` accumulator; every failing check `continue`s. -/
def copyLoop : List ItemCtx → Nat → Nat
  | [], n => n
  | i :: rest, n =>
      if i.sourceExists = false then copyLoop rest n
      else if i.hasFileName = false then copyLoop rest n
      else if i.destOccupied = true then copyLoop rest n
      else if i.opOk = true then copyLoop rest (n + 1)
      else copyLoop rest n

/-- Loop of `move_items` (lib.rs lines 359-382), same shape with
`fs::rename` as the operation. -/
def moveLoop : List ItemCtx → Nat → Nat
  | [], n => n
  | i :: rest, n =>
      if i.sourceExists = false then moveLoop rest n
      else if i.hasFileName = false then moveLoop rest n
      else if i.destOccupied = true then moveLoop rest n
      else if i.opOk = true then moveLoop rest (n + 1)
      else moveLoop rest n

/-- Shallow embedding of `copy_items` (lib.rs lines 287-329). -/
def copy_items (destExists destIsDir : Bool) (items : List ItemCtx) :
    Except String String :=
  if destExists = false || destIsDir = false then
    .error "Destination directory does not exist"
  else
    .ok (toString (copyLoop items 0) ++ " item(s) copied successfully")

/-- Shallow embedding of `move_items` (lib.rs lines 349-385). -/
def move_items (destExists destIsDir : Bool) (items : List ItemCtx) :
    Except String String :=
  if destExists = false || destIsDir = false then
    .error "Destination directory does not exist"
  else
    .ok (toString (moveLoop items 0) ++ " item(s) moved successfully")

/-- Helper: the copy loop counts the items passing all four checks. -/
theorem copyLoop_eq_countP (items : List ItemCtx) (n : Nat) :
    copyLoop items n = n + items.countP shouldTransfer := by
  induction items generalizing n with
  | nil => simp [copyLoop]
  | cons i rest ih =>
    obtain ⟨se, hf, docc, op⟩ := i
    cases se <;> cases hf <;> cases docc <;> cases op <;>
      simp [copyLoop, shouldTransfer, ih, List.countP_cons] <;> omega

/-- Helper: the move loop counts the items passing all four checks. -/
theorem moveLoop_eq_countP (items : List ItemCtx) (n : Nat) :
    moveLoop items n = n + items.countP shouldTransfer := by
  induction items generalizing n with
  | nil => simp [moveLoop]
  | cons i rest ih =>
    obtain ⟨se, hf, docc, op⟩ := i
    cases se <;> cases hf <;> cases docc <;> cases op <;>
      simp [moveLoop, shouldTransfer, ih, List.countP_cons] <;> omega

/-- C10: with an existing destination directory, `copy_items` and
`move_items` always succeed, reporting exactly the number of items that
passed every check; a source that fails any check (missing source, no
file name, occupied destination, failed OS operation) is silently skipped
without affecting the result; and the reported count can be zero. -/
theorem copy_move_dest_ok_never_errors (items : List ItemCtx)
    (i : ItemCtx) (hskip : shouldTransfer i = false) :
    copy_items true true items
        = .ok (toString (items.countP shouldTransfer)
            ++ " item(s) copied successfully")
    ∧ move_items true true items
        = .ok (toString (items.countP shouldTransfer)
            ++ " item(s) moved successfully")
    ∧ copy_items true true (i :: items) = copy_items true true items
    ∧ move_items true true (i :: items) = move_items true true items
    ∧ copy_items true true ([] : List ItemCtx)
        = .ok "0 item(s) copied successfully"
    ∧ move_items true true ([] : List ItemCtx)
        = .ok "0 item(s) moved successfully" := by
  refine ⟨?_, ?_, ?_, ?_, rfl, rfl⟩ <;>
    simp [copy_items, move_items, copyLoop_eq_countP, moveLoop_eq_countP,
      List.countP_cons, hskip]

/-- Witness for C10: a missing source in front of one good item is skipped
and one item is reported copied/moved. -/
theorem copy_move_dest_ok_never_errors_witness :
    shouldTransfer ⟨false, true, false, true⟩ = false
    ∧ copy_items true true [⟨false, true, false, true⟩, ⟨true, true, false, true⟩]
        = copy_items true true [⟨true, true, false, true⟩]
    ∧ copy_items true true [⟨true, true, false, true⟩]
        = .ok "1 item(s) copied successfully"
    ∧ move_items true true ([] : List ItemCtx)
        = .ok "0 item(s) moved successfully" := by
  have h := copy_move_dest_ok_never_errors [⟨true, true, false, true⟩]
    ⟨false, true, false, true⟩ (by decide)
  exact ⟨by decide, h.2.2.1, rfl, h.2.2.2.2.2⟩

/-! ### Directory listing (lib.rs lines 110-178) -/

/-- One listed entry (lib.rs lines 13-22). `date_modified` is modelled as
an integer timestamp. -/
structure FileItem where
  id : String
  name : String
  file_type : String
  size : Option Nat
  date_modified : Int
  extension : Option String
  path : String
deriving DecidableEq

/-- Raw facts about one readable directory entry, in `read_dir` order. -/
structure RawEntry where
  name : String
  isDir : Bool
  size : Nat
  modified : Int
  extension : Option String
  pathStr : String
deriving DecidableEq

/-- Lexicographic comparison of character lists by Unicode scalar value.
Rust compares strings by UTF-8 bytes, which orders exactly like scalar
values because UTF-8 encoding is order-preserving. -/
def charsCmp : List Char → List Char → Ordering
  | [], [] => .eq
  | [], _ :: _ => .lt
  | _ :: _, [] => .gt
  | a :: as, b :: bs =>
      if a.toNat < b.toNat then .lt
      else if b.toNat < a.toNat then .gt
      else charsCmp as bs

/-- Characters of a name after `to_lowercase()` (ASCII range; agrees with
Rust on ASCII names). -/
def lowerChars (s : String) : List Char := s.data.map Char.toLower

/-- Comparison `a.name.to_lowercase().cmp(&b.name.to_lowercase())`. -/
def nameCmp (a b : String) : Ordering := charsCmp (lowerChars a) (lowerChars b)

/-- The comparator closure of `items.sort_by` (lib.rs lines 169-175):
folders before files, otherwise case-insensitive name comparison. -/
def itemCmp (a b : FileItem) : Ordering :=
  if a.file_type = "folder" ∧ b.file_type = "file" then .lt
  else if a.file_type = "file" ∧ b.file_type = "folder" then .gt
  else nameCmp a.name b.name

/-- Whether the comparator allows `a` at or before `b` (not Greater). -/
def itemLe (a b : FileItem) : Bool :=
  match itemCmp a b with
  | .gt => false
  | _ => true

/-- Insertion step of the stable sort modelling `sort_by`. -/
def orderedInsertItem (a : FileItem) : List FileItem → List FileItem
  | [] => [a]
  | b :: l =>
      if itemLe a b = true then a :: b :: l else b :: orderedInsertItem a l

/-- Stable sort modelling Rust's stable `sort_by` with `itemCmp`. -/
def sortItems : List FileItem → List FileItem
  | [] => []
  | a :: l => orderedInsertItem a (sortItems l)

/-- Construction of one `FileItem` from a directory entry (lib.rs lines
128-159): the enumeration index becomes the id, directories get type
"folder" with no size and no extension, files get type "file". -/
def mkFileItem (index : Nat) (e : RawEntry) : FileItem :=
  { id := toString index,
    name := e.name,
    file_type := if e.isDir then "folder" else "file",
    size := if e.isDir then none else some e.size,
    date_modified := e.modified,
    extension := if e.isDir then none else e.extension,
    path := e.pathStr }

/-- Shallow embedding of `list_directory` (lib.rs lines 111-178) on an
existing directory: build one item per readable entry in read order, then
sort folders-first and case-insensitively by name. -/
def list_directory (entries : List RawEntry) : List FileItem :=
  sortItems ((entries.enum).map (fun ie => mkFileItem ie.1 ie.2))

/-- Every item produced by `list_directory` has type "folder" or "file". -/
def validItem (i : FileItem) : Prop :=
  i.file_type = "folder" ∨ i.file_type = "file"

/-- The ordering claim's relation: a folder before a file, or two entries
of one type in case-insensitive name order. -/
def folderFirstNameOrder (a b : FileItem) : Prop :=
  (a.file_type = "folder" ∧ b.file_type = "file")
  ∨ (a.file_type = b.file_type ∧ nameCmp a.name b.name ≠ .gt)

/-- Helper: swapping the arguments of `charsCmp` swaps the ordering. -/
theorem charsCmp_swap : ∀ (xs ys : List Char),
    (charsCmp xs ys).swap = charsCmp ys xs
  | [], [] => rfl
  | [], _ :: _ => rfl
  | _ :: _, [] => rfl
  | a :: as, b :: bs => by
    by_cases h1 : a.toNat < b.toNat
    · have h2 : ¬ b.toNat < a.toNat := by omega
      simp [charsCmp, h1, h2, Ordering.swap]
    · by_cases h2 : b.toNat < a.toNat
      · simp [charsCmp, h1, h2, Ordering.swap]
      · simp [charsCmp, h1, h2, charsCmp_swap as bs]

/-- Helper: at most one direction of `charsCmp` reports Greater. -/
theorem charsCmp_total (xs ys : List Char) :
    charsCmp xs ys ≠ .gt ∨ charsCmp ys xs ≠ .gt := by
  by_cases h : charsCmp xs ys = .gt
  · right
    rw [← charsCmp_swap xs ys, h]
    decide
  · left
    exact h

/-- Helper: transitivity of not-Greater for `charsCmp`. -/
theorem charsCmp_trans : ∀ (xs ys zs : List Char),
    charsCmp xs ys ≠ .gt → charsCmp ys zs ≠ .gt → charsCmp xs zs ≠ .gt
  | [], _, [], _, _ => by simp [charsCmp]
  | [], _, _ :: _, _, _ => by simp [charsCmp]
  | _ :: _, [], _, h1, _ => by simp [charsCmp] at h1
  | _ :: _, _ :: _, [], _, h2 => by simp [charsCmp] at h2
  | a :: as, b :: bs, c :: cs, h1, h2 => by
    simp only [charsCmp] at h1 h2 ⊢
    by_cases hab : a.toNat < b.toNat
    · by_cases hbc : b.toNat < c.toNat
      · have hac : a.toNat < c.toNat := by omega
        simp [hac]
      · by_cases hcb : c.toNat < b.toNat
        · simp [hbc, hcb] at h2
        · have hac : a.toNat < c.toNat := by omega
          simp [hac]
    · by_cases hba : b.toNat < a.toNat
      · simp [hab, hba] at h1
      · simp [hab, hba] at h1
        by_cases hbc : b.toNat < c.toNat
        · have hac : a.toNat < c.toNat := by omega
          simp [hac]
        · by_cases hcb : c.toNat < b.toNat
          · simp [hbc, hcb] at h2
          · simp [hbc, hcb] at h2
            have hac : ¬ a.toNat < c.toNat := by omega
            have hca : ¬ c.toNat < a.toNat := by omega
            simp [hac, hca]
            exact charsCmp_trans as bs cs h1 h2

/-- Helper: `itemLe` holds exactly when the comparator is not Greater. -/
theorem itemLe_iff (a b : FileItem) : itemLe a b = true ↔ itemCmp a b ≠ .gt := by
  unfold itemLe
  cases itemCmp a b <;> simp

/-- Helper: the comparator is total on valid items. -/
theorem itemLe_total (a b : FileItem) (ha : validItem a)
    (hb : validItem b) : itemLe a b = true ∨ itemLe b a = true := by
  rw [itemLe_iff, itemLe_iff]
  unfold itemCmp nameCmp
  rcases ha with ha | ha <;> rcases hb with hb | hb <;>
    simp [ha, hb] <;> exact charsCmp_total _ _

/-- Helper: the comparator is transitive on valid items. -/
theorem itemLe_trans (a b c : FileItem) (ha : validItem a)
    (hb : validItem b) (hc : validItem c) (h1 : itemLe a b = true)
    (h2 : itemLe b c = true) : itemLe a c = true := by
  rw [itemLe_iff] at h1 h2 ⊢
  unfold itemCmp nameCmp at h1 h2 ⊢
  rcases ha with ha | ha <;> rcases hb with hb | hb <;>
    rcases hc with hc | hc <;>
      simp [ha, hb, hc] at h1 h2 ⊢ <;>
        exact charsCmp_trans _ _ _ h1 h2

/-- Helper: membership through insertion. -/
theorem mem_orderedInsertItem (a x : FileItem) (l : List FileItem) :
    x ∈ orderedInsertItem a l ↔ x = a ∨ x ∈ l := by
  induction l with
  | nil => simp [orderedInsertItem]
  | cons b t ih =>
    by_cases h : itemLe a b = true
    · simp [orderedInsertItem, h, List.mem_cons]
    · simp only [orderedInsertItem, if_neg h, List.mem_cons, ih]
      tauto

/-- Helper: insertion is a permutation of consing. -/
theorem perm_orderedInsertItem (a : FileItem) (l : List FileItem) :
    (orderedInsertItem a l).Perm (a :: l) := by
  induction l with
  | nil => exact List.Perm.refl _
  | cons b t ih =>
    by_cases h : itemLe a b = true
    · rw [orderedInsertItem, if_pos h]
    · rw [orderedInsertItem, if_neg h]
      exact (List.Perm.cons b ih).trans (List.Perm.swap a b t)

/-- Helper: the sort permutes its input. -/
theorem perm_sortItems (l : List FileItem) : (sortItems l).Perm l := by
  induction l with
  | nil => exact List.Perm.refl _
  | cons a t ih =>
    exact (perm_orderedInsertItem a (sortItems t)).trans (List.Perm.cons a ih)

/-- Helper: inserting a valid item into a sorted list of valid items keeps
it sorted. -/
theorem pairwise_orderedInsertItem (a : FileItem) (l : List FileItem)
    (ha : validItem a) (hl : ∀ x ∈ l, validItem x)
    (hp : l.Pairwise (fun x y => itemLe x y = true)) :
    (orderedInsertItem a l).Pairwise (fun x y => itemLe x y = true) := by
  induction l with
  | nil => simp [orderedInsertItem]
  | cons b t ih =>
    have hb := hl b (List.mem_cons_self b t)
    have ht : ∀ x ∈ t, validItem x :=
      fun x hx => hl x (List.mem_cons_of_mem b hx)
    rw [List.pairwise_cons] at hp
    by_cases h : itemLe a b = true
    · rw [orderedInsertItem, if_pos h, List.pairwise_cons]
      refine ⟨?_, List.pairwise_cons.mpr hp⟩
      intro x hx
      rcases List.mem_cons.mp hx with rfl | hxt
      · exact h
      · exact itemLe_trans a b x ha hb (ht x hxt) h (hp.1 x hxt)
    · rw [orderedInsertItem, if_neg h, List.pairwise_cons]
      refine ⟨?_, ih ht hp.2⟩
      intro x hx
      rcases (mem_orderedInsertItem a x t).mp hx with hxa | hxt
      · rw [hxa]
        rcases itemLe_total a b ha hb with hab | hba
        · exact absurd hab h
        · exact hba
      · exact hp.1 x hxt

/-- Helper: sorting a list of valid items yields a sorted list. -/
theorem pairwise_sortItems (l : List FileItem)
    (hl : ∀ x ∈ l, validItem x) :
    (sortItems l).Pairwise (fun x y => itemLe x y = true) := by
  induction l with
  | nil => simp [sortItems]
  | cons a t ih =>
    have ha := hl a (List.mem_cons_self a t)
    have ht : ∀ x ∈ t, validItem x :=
      fun x hx => hl x (List.mem_cons_of_mem a hx)
    have hs : ∀ x ∈ sortItems t, validItem x :=
      fun x hx => ht x ((perm_sortItems t).mem_iff.mp hx)
    exact pairwise_orderedInsertItem a (sortItems t) ha hs (ih ht)

/-- Helper: on valid items, not-Greater means the claimed order. -/
theorem itemLe_imp_order (a b : FileItem) (ha : validItem a)
    (hb : validItem b) (h : itemLe a b = true) :
    folderFirstNameOrder a b := by
  rw [itemLe_iff] at h
  unfold itemCmp at h
  rcases ha with ha | ha <;> rcases hb with hb | hb <;>
    simp [ha, hb, folderFirstNameOrder] <;>
      simpa [ha, hb] using h

/-- Helper: every constructed item is valid. -/
theorem validItem_mkFileItem (i : Nat) (e : RawEntry) :
    validItem (mkFileItem i e) := by
  unfold validItem mkFileItem
  by_cases h : e.isDir <;> simp [h]

/-- Directory holding `b.txt`, a folder `A`, and `a.txt`, in read order. -/
def exampleEntries : List RawEntry :=
  [{ name := "b.txt", isDir := false, size := 3, modified := 0,
     extension := some "txt", pathStr := "/d/b.txt" },
   { name := "A", isDir := true, size := 0, modified := 0,
     extension := none, pathStr := "/d/A" },
   { name := "a.txt", isDir := false, size := 3, modified := 0,
     extension := some "txt", pathStr := "/d/a.txt" }]

/-- C7: `list_directory` returns exactly the directory's entries (a
permutation of the items built from them), ordered folders-first and then
by case-insensitive name within each group; in particular the directory
{b.txt, A/, a.txt} lists as ["A", "a.txt", "b.txt"]. -/
theorem list_directory_order (entries : List RawEntry) :
    (list_directory entries).Pairwise folderFirstNameOrder
    ∧ (list_directory entries).Perm
        ((entries.enum).map (fun ie => mkFileItem ie.1 ie.2))
    ∧ (list_directory exampleEntries).map FileItem.name
        = ["A", "a.txt", "b.txt"] := by
  have hv : ∀ x ∈ (entries.enum).map (fun ie => mkFileItem ie.1 ie.2),
      validItem x := by
    intro x hx
    obtain ⟨ie, _, rfl⟩ := List.mem_map.mp hx
    exact validItem_mkFileItem ie.1 ie.2
  refine ⟨?_, perm_sortItems _, by decide⟩
  have hp := pairwise_sortItems _ hv
  have hv' : ∀ x ∈ list_directory entries, validItem x :=
    fun x hx => hv x ((perm_sortItems _).mem_iff.mp hx)
  exact hp.imp_of_mem (fun hx hy hxy =>
    itemLe_imp_order _ _ (hv' _ hx) (hv' _ hy) hxy)

end Filegraph
